import Mathlib

/-!
Verification of the chunked-download engine of the Pirate-Downloader
repository against its natural-language specification.

The Rust sources are shallowly embedded: pure functions become Lean
functions on `Nat` (u64 overflow is modelled explicitly with `% 2^64`
where it matters), the worker main loop becomes an explicit step function
on a worker-state record with the network abstracted as an oracle, and the
command handlers become state transformers over a small environment record
(registry entry, control block, disk outcome of `save_state`).
-/

set_option autoImplicit false

namespace Pirate

/-! ## Data model (src-tauri/src/core/state.rs) -/

/-- `DownloadState` from `core/state.rs`. -/
inductive DownloadState where
  | Pending
  | Active
  | Paused
  | Stopped
  | Completed
  | Failed
  | Cancelled
deriving DecidableEq, Repr

/-- `DownloadState::can_resume`. -/
def DownloadState.can_resume : DownloadState → Bool
  | .Paused => true
  | .Stopped => true
  | _ => false

/-- `DownloadState::is_terminal`. -/
def DownloadState.is_terminal : DownloadState → Bool
  | .Completed => true
  | .Failed => true
  | .Cancelled => true
  | _ => false

/-- `DownloadState::is_active`. -/
def DownloadState.is_active : DownloadState → Bool
  | .Active => true
  | _ => false

/-- The string produced for a state by the derived Rust `Debug` instance
(used in the command error messages). -/
def DownloadState.debugStr : DownloadState → String
  | .Pending => "Pending"
  | .Active => "Active"
  | .Paused => "Paused"
  | .Stopped => "Stopped"
  | .Completed => "Completed"
  | .Failed => "Failed"
  | .Cancelled => "Cancelled"

/-- `DownloadMetadata` from `core/state.rs`.  The chrono timestamps carry
no information the claims depend on beyond presence, so each
`Option<DateTime<Utc>>` field is embedded as `Option Unit`
(`Utc::now()` becomes `some ()`). -/
structure DownloadMetadata where
  url : String
  filepath : String
  total_size : Nat
  downloaded_bytes : Nat
  state : DownloadState
  thread_count : Nat
  completed_chunks : List Nat
  incomplete_chunks : List Nat
  paused_at : Option Unit
  resumed_at : Option Unit
  stopped_at : Option Unit
  completed_at : Option Unit
  error_message : Option String
deriving DecidableEq, Repr

/-- `DownloadMetadata::pause`. -/
def DownloadMetadata.pause (m : DownloadMetadata) : DownloadMetadata :=
  { m with state := .Paused, paused_at := some () }

/-- `DownloadMetadata::resume`. -/
def DownloadMetadata.resume (m : DownloadMetadata) : DownloadMetadata :=
  { m with state := .Active, resumed_at := some () }

/-- `DownloadMetadata::stop`. -/
def DownloadMetadata.stop (m : DownloadMetadata) : DownloadMetadata :=
  { m with state := .Stopped, stopped_at := some () }

/-- `DownloadMetadata::complete`. -/
def DownloadMetadata.complete (m : DownloadMetadata) : DownloadMetadata :=
  { m with state := .Completed, completed_at := some () }

/-- `DownloadMetadata::cancel`. -/
def DownloadMetadata.cancel (m : DownloadMetadata) : DownloadMetadata :=
  { m with state := .Cancelled }

/-! ## Error taxonomy (src-tauri/src/core/error.rs usage sites) -/

/-- The variants of `DownloadError` that the embedded code constructs. -/
inductive DownloadError where
  | Network (msg : String)
  | FileSystem (msg : String)
  | Integrity (message : String)
  | Config (msg : String)
  | TaskJoin (msg : String)
  | Serialization (msg : String)
  | StateNotFound (msg : String)
deriving DecidableEq, Repr

/-! ## Chunk-size policy (src-tauri/src/utils/filesystem.rs) -/

/-- `calculate_chunk_size` from `utils/filesystem.rs`, literally the same
tiered conditional. -/
def calculate_chunk_size (total_size : Nat) : Nat :=
  if total_size < 100 * 1024 * 1024 then
    512 * 1024
  else if total_size < 1 * 1024 * 1024 * 1024 then
    4 * 1024 * 1024
  else if total_size < 10 * 1024 * 1024 * 1024 then
    16 * 1024 * 1024
  else
    64 * 1024 * 1024

/-! ## Sparse-file allocation (src-tauri/src/utils/filesystem.rs) -/

/-- 2 to the 64th, the modulus of Rust u64 arithmetic. -/
def U64 : Nat := 18446744073709551616

/-- Wrapping u64 subtraction of one, the release-mode meaning of the
expression `size - 1` on a `u64`. -/
def u64sub1 (size : Nat) : Nat :=
  (size % U64 + U64 - 1) % U64

/-- A file as far as `allocate_sparse_file` observes it: a length and a
cursor position.  `File::create` truncates to length 0. -/
structure SimFile where
  length : Nat
  pos : Nat
deriving DecidableEq, Repr

/-- `File::create`. -/
def fileCreate : SimFile := ⟨0, 0⟩

/-- `file.seek(SeekFrom::Start(off))`: moves the cursor, allowed past the
end of the file. -/
def seekStart (f : SimFile) (off : Nat) : SimFile :=
  { f with pos := off }

/-- `file.write_all` of `bytes` bytes at the current cursor: the file
grows to cover the written region. -/
def writeAll (f : SimFile) (bytes : Nat) : SimFile :=
  { length := max f.length (f.pos + bytes), pos := f.pos + bytes }

/-- `allocate_sparse_file` from `utils/filesystem.rs`: create, seek to
`size - 1` (u64 arithmetic), write one byte. -/
def allocate_sparse_file (size : Nat) : SimFile :=
  writeAll (seekStart fileCreate (u64sub1 size)) 1

/-! ## Integrity verification (src-tauri/src/core/integrity.rs) -/

/-- `verify_download` from `core/integrity.rs`. -/
def verify_download (downloaded_bytes total_size completed_chunks total_chunks : Nat) :
    Except DownloadError Unit :=
  if downloaded_bytes < total_size then
    .error (.Integrity
      ("Download FAILED: " ++ toString downloaded_bytes ++ " / " ++ toString total_size ++
        " bytes (" ++ toString completed_chunks ++ " / " ++ toString total_chunks ++
        " chunks). Retry."))
  else
    .ok ()

/-! ## Chunk geometry (src-tauri/src/core/engine.rs, worker range computation) -/

/-- `total_chunks = (total_size + chunk_size - 1) / chunk_size` from
`DownloadEngine::start`. -/
def totalChunks (total_size chunk_size : Nat) : Nat :=
  (total_size + chunk_size - 1) / chunk_size

/-- `start = idx * chunk_size` from the worker. -/
def chunkStart (chunk_size idx : Nat) : Nat :=
  idx * chunk_size

/-- The worker range end: `end = start + chunk_size - 1` clamped to
`total_size - 1` when it overshoots, exactly the two statements in the
worker. -/
def chunkEnd (chunk_size total_size idx : Nat) : Nat :=
  if chunkStart chunk_size idx + chunk_size - 1 ≥ total_size then
    total_size - 1
  else
    chunkStart chunk_size idx + chunk_size - 1

/-- `expected_bytes = end - start + 1` from the worker success check. -/
def expectedBytes (chunk_size total_size idx : Nat) : Nat :=
  chunkEnd chunk_size total_size idx - chunkStart chunk_size idx + 1

/-! ## Engine constants (src-tauri/src/core/types.rs) -/

/-- `CHUNK_RETRY_LIMIT` from `core/types.rs`. -/
def CHUNK_RETRY_LIMIT : Nat := 5

/-- `ADAPTIVE_RETRY_THRESHOLD` from `core/types.rs`. -/
def ADAPTIVE_RETRY_THRESHOLD : Nat := 3

/-! ## Worker model (src-tauri/src/core/engine.rs, worker task)

The worker main loop is embedded as a step function.  The shared
`DownloadControl` block is a record; because the embedding is sequential,
the atomics hold whatever the surrounding commands last stored, and they
do not change inside one loop iteration.  What the network does on one
HTTP attempt (request failure, or a streamed body of some byte count with
the `chunk_ok` flag the streaming loop computes) is an oracle parameter;
the generation and signal checks, the retry bookkeeping, the success
condition and the requeue policy are translated from the source. -/

/-- `DownloadControl` from `commands/download_control.rs`. -/
structure DownloadControl where
  signal : Nat
  completed_chunks : List Nat
  downloaded_bytes : Nat
  generation : Nat
deriving DecidableEq, Repr

/-- Per-run constants of `DownloadEngine::start` as seen by one worker. -/
structure WorkerCfg where
  generation : Nat
  chunk_size : Nat
  total_size : Nat
  total_chunks : Nat
deriving DecidableEq, Repr

/-- What one HTTP attempt of the worker does: the request fails outright
(error response status, send error or seek failure), or a body is
streamed, writing `bytes` bytes into the file, with `ok` the final value
of the `chunk_ok` flag of the streaming loop. -/
inductive AttemptOutcome where
  | httpFail
  | streamed (bytes : Nat) (ok : Bool)
deriving DecidableEq, Repr

/-- Network oracle: outcome of the attempt on a chunk index, given the
attempt ordinal and the `enforce_speed` flag. -/
def NetOracle : Type := Nat → Nat → Bool → AttemptOutcome

/-- The worker attempt loop (`while attempts < CHUNK_RETRY_LIMIT && !success`).
Returns the `success` flag, the control block (updated on full-chunk
success only), and the running count of bytes written to the file. -/
def attemptLoop (cfg : WorkerCfg) (net : NetOracle) (idx expected : Nat)
    (enforce_speed : Bool) :
    Nat → Nat → DownloadControl → Nat → Bool × DownloadControl × Nat
  | 0, _, c, bw => (false, c, bw)
  | fuel + 1, attemptNo, c, bw =>
    if c.signal ≠ 0 then
      (false, c, bw)
    else if c.generation ≠ cfg.generation then
      (false, c, bw)
    else
      match net idx attemptNo enforce_speed with
      | .httpFail => attemptLoop cfg net idx expected enforce_speed fuel (attemptNo + 1) c bw
      | .streamed bytes ok =>
        if ok && bytes == expected then
          (true,
            { c with
              downloaded_bytes := c.downloaded_bytes + expected,
              completed_chunks := c.completed_chunks ++ [idx] },
            bw + bytes)
        else
          attemptLoop cfg net idx expected enforce_speed fuel (attemptNo + 1) c (bw + bytes)

/-- Retry-count map lookup (`counts.entry(idx).or_insert(0)`). -/
def rcGet (l : List (Nat × Nat)) (k : Nat) : Nat :=
  match l.find? (fun p => p.1 == k) with
  | some p => p.2
  | none => 0

/-- Retry-count map store. -/
def rcSet (l : List (Nat × Nat)) (k v : Nat) : List (Nat × Nat) :=
  (k, v) :: l.filter (fun p => p.1 != k)

/-- Mutable state of one worker task between main-loop iterations. -/
structure WorkerState where
  control : DownloadControl
  queue : List Nat
  retry_counts : List (Nat × Nat)
  bytesWritten : Nat
deriving DecidableEq, Repr

/-- Whether a main-loop iteration ended in `break` or ran to `continue`. -/
inductive IterResult where
  | exitLoop
  | continueLoop
deriving DecidableEq, Repr

/-- One iteration of the worker main loop from `DownloadEngine::start`:
signal check, lease from the queue (with the completed-count exit check on
an empty queue), retry-count bump, adaptive `enforce_speed`, range
computation, the attempt loop, and the requeue-on-exhaustion step. -/
def workerIteration (cfg : WorkerCfg) (net : NetOracle) (s : WorkerState) :
    IterResult × WorkerState :=
  if s.control.signal ≠ 0 then
    (.exitLoop, s)
  else
    match s.queue with
    | [] =>
      if s.control.completed_chunks.length ≥ cfg.total_chunks then
        (.exitLoop, s)
      else
        (.continueLoop, s)
    | idx :: rest =>
      let retry_count := rcGet s.retry_counts idx + 1
      let retry_counts := rcSet s.retry_counts idx retry_count
      let enforce_speed : Bool := retry_count < ADAPTIVE_RETRY_THRESHOLD
      let expected := expectedBytes cfg.chunk_size cfg.total_size idx
      let r := attemptLoop cfg net idx expected enforce_speed CHUNK_RETRY_LIMIT 1
        s.control s.bytesWritten
      let queue := if !r.1 && r.2.1.signal == 0 then rest ++ [idx] else rest
      (.continueLoop,
        { control := r.2.1, queue := queue, retry_counts := retry_counts,
          bytesWritten := r.2.2 })

/-- Iterate the worker main loop up to `n` times; the Bool records whether
the loop exited (`break`) within those iterations. -/
def workerSteps (cfg : WorkerCfg) (net : NetOracle) : Nat → WorkerState → Bool × WorkerState
  | 0, s => (false, s)
  | n + 1, s =>
    match workerIteration cfg net s with
    | (.exitLoop, t) => (true, t)
    | (.continueLoop, t) => workerSteps cfg net n t

/-- The progress-accounting invariant: the shared byte counter equals the
sum of the expected sizes of the chunks recorded as completed. -/
def workerInv (cfg : WorkerCfg) (s : WorkerState) : Prop :=
  s.control.downloaded_bytes =
    (s.control.completed_chunks.map (expectedBytes cfg.chunk_size cfg.total_size)).sum

/-! ## Engine termination path (src-tauri/src/core/engine.rs, after the
worker join)

`DownloadEngine::start` after `for handle in handles { handle.await ... }`:
re-read the signal, return early on a nonzero signal, otherwise run the
integrity check, emit the final progress event, mark the metadata
Completed in the manager (when the entry is still present), remove the
entry, and return "completed".  The state file is a boolean of the
environment; the path is recorded unchanged unless the code touches it. -/

/-- Events emitted through the Tauri `AppHandle`. -/
inductive Event where
  | progress (bytes : Nat)
  | state (value : String)
deriving DecidableEq, Repr

/-- `DownloadCommandResult` from `core/engine.rs`. -/
structure DownloadCommandResult where
  id : String
  status : String
deriving DecidableEq, Repr

/-- The status string the engine maps a nonzero final signal to. -/
def signalStatus (signal : Nat) : String :=
  match signal with
  | 1 => "paused"
  | 2 => "stopped"
  | _ => "cancelled"

/-- Inputs of the engine termination path: the per-run identifiers and
totals, the values the atomics hold once the workers have joined, the
manager entry for the id, and whether a state file exists on disk. -/
structure EngineFinishInput where
  download_id : String
  total_size : Nat
  total_chunks : Nat
  final_signal : Nat
  final_bytes : Nat
  final_completed_count : Nat
  managerEntry : Option DownloadMetadata
  stateFileExists : Bool
deriving DecidableEq, Repr

/-- Outputs of the engine termination path.  `updatedMeta` is the value
passed to `manager.update_download` when that call happens (the code
removes the entry right after, so `managerEntry` alone would hide the
Completed marking). -/
structure EngineFinishOutput where
  result : Except DownloadError DownloadCommandResult
  events : List Event
  managerEntry : Option DownloadMetadata
  updatedMeta : Option DownloadMetadata
  stateFileExists : Bool
deriving Repr

/-- The termination path of `DownloadEngine::start`, translated from the
code after the worker join: early return on a nonzero signal; otherwise
integrity check, final progress event, Completed marking under the
manager lock when the entry exists, unconditional removal, and the
"completed" result.  No statement of this path touches the state file. -/
def engineFinish (inp : EngineFinishInput) : EngineFinishOutput :=
  if inp.final_signal ≠ 0 then
    { result := .ok ⟨inp.download_id, signalStatus inp.final_signal⟩
      events := []
      managerEntry := inp.managerEntry
      updatedMeta := none
      stateFileExists := inp.stateFileExists }
  else
    match verify_download inp.final_bytes inp.total_size inp.final_completed_count
        inp.total_chunks with
    | .error e =>
      { result := .error e
        events := []
        managerEntry := inp.managerEntry
        updatedMeta := none
        stateFileExists := inp.stateFileExists }
    | .ok _ =>
      match inp.managerEntry with
      | some m =>
        { result := .ok ⟨inp.download_id, "completed"⟩
          events := [.progress inp.total_size, .state "completed"]
          managerEntry := none
          updatedMeta := some { m.complete with downloaded_bytes := inp.total_size }
          stateFileExists := inp.stateFileExists }
      | none =>
        { result := .ok ⟨inp.download_id, "completed"⟩
          events := [.progress inp.total_size]
          managerEntry := none
          updatedMeta := none
          stateFileExists := inp.stateFileExists }

/-! ## Command handlers (src-tauri/src/commands/download_control.rs)

`pause_download` and `stop_download` as state transformers.  The
environment carries the manager metadata entry for the id, the control
block for the id, and the outcome `save_state` would have on disk (the
serialization and `fs::write`, mapped to a string as the commands do). -/

/-- Environment of one command invocation for a fixed download id. -/
structure CommandEnv where
  metadataEntry : Option DownloadMetadata
  controlEntry : Option DownloadControl
  saveResult : Except String Unit
deriving Repr

/-- `pause_download` from `commands/download_control.rs`: metadata lookup,
active-state check, `metadata.pause()`, sync of the control counters into
the metadata with the incomplete-chunk retain, signal store of 1, then
`save_state` (surfacing its error before the registry update), the
registry update, and the "paused" state event. -/
def pause_download (download_id : String) (env : CommandEnv) :
    Except String Unit × CommandEnv × List Event :=
  match env.metadataEntry with
  | none => (.error ("Download " ++ download_id ++ " not found"), env, [])
  | some metadata0 =>
    if !metadata0.state.is_active then
      (.error ("Cannot pause download in state: " ++ metadata0.state.debugStr), env, [])
    else
      let metadata1 := metadata0.pause
      let step :=
        match env.controlEntry with
        | some c =>
          ({ metadata1 with
             downloaded_bytes := c.downloaded_bytes,
             completed_chunks := c.completed_chunks,
             incomplete_chunks :=
               metadata1.incomplete_chunks.filter
                 (fun i => !c.completed_chunks.contains i) },
           some { c with signal := 1 })
        | none => (metadata1, none)
      match env.saveResult with
      | .error e => (.error e, { env with controlEntry := step.2 }, [])
      | .ok _ =>
        (.ok (),
          { metadataEntry := some step.1, controlEntry := step.2,
            saveResult := env.saveResult },
          [.state "paused"])

/-- `stop_download` from `commands/download_control.rs`: identical shape
to `pause_download` except that there is no state check before
`metadata.stop()`, the signal stored is 2, and the event is "stopped". -/
def stop_download (download_id : String) (env : CommandEnv) :
    Except String Unit × CommandEnv × List Event :=
  match env.metadataEntry with
  | none => (.error ("Download " ++ download_id ++ " not found"), env, [])
  | some metadata0 =>
    let metadata1 := metadata0.stop
    let step :=
      match env.controlEntry with
      | some c =>
        ({ metadata1 with
           downloaded_bytes := c.downloaded_bytes,
           completed_chunks := c.completed_chunks,
           incomplete_chunks :=
             metadata1.incomplete_chunks.filter
               (fun i => !c.completed_chunks.contains i) },
         some { c with signal := 2 })
      | none => (metadata1, none)
    match env.saveResult with
    | .error e => (.error e, { env with controlEntry := step.2 }, [])
    | .ok _ =>
      (.ok (),
        { metadataEntry := some step.1, controlEntry := step.2,
          saveResult := env.saveResult },
        [.state "stopped"])

/-! ## Filename extraction (src-tauri/src/network/headers.rs)

`extract_filename` uses three pieces of external-crate behavior: the
`str` primitives `split`/`trim`/`trim_matches` (modelled below on char
lists, structurally recursive so that concrete inputs evaluate), the
`url` crate path-segment iterator and the `sanitize_filename` crate.
The last two are dependencies, not repository code, so they enter the
embedding as parameters; what the claims turn on is where the repository
code applies them. -/

/-- The double-quote character. -/
def quoteChar : Char := Char.ofNat 34

/-- The apostrophe character. -/
def apostChar : Char := Char.ofNat 39

/-- Rust `char::is_whitespace` restricted to the ASCII whitespace the
embedded inputs use. -/
def isWsChar (c : Char) : Bool :=
  c == Char.ofNat 32 || c == Char.ofNat 9 || c == Char.ofNat 10 || c == Char.ofNat 13

/-- Rust `str::trim`. -/
def rustTrim (s : String) : String :=
  String.mk (((s.data.dropWhile isWsChar).reverse.dropWhile isWsChar).reverse)

/-- Rust `str::trim_matches(c)`: strip every leading and trailing
occurrence of `c`. -/
def trimMatchesChar (c : Char) (s : String) : String :=
  String.mk
    (((s.data.dropWhile (fun a => a == c)).reverse.dropWhile (fun a => a == c)).reverse)

/-- Worker of `rustSplit`: scan for the separator, fuelled by the input
length (every step consumes at least one character). -/
def splitScan (sep : List Char) : Nat → List Char → List Char → List (List Char)
  | _, [], acc => [acc.reverse]
  | 0, l, acc => [acc.reverse ++ l]
  | fuel + 1, c :: rest, acc =>
    if sep.isPrefixOf (c :: rest) then
      acc.reverse :: splitScan sep fuel (List.drop (sep.length - 1) rest) []
    else
      splitScan sep fuel rest (c :: acc)

/-- Rust `str::split(sep)` for a nonempty literal separator, collected to
a list. -/
def rustSplit (sep s : String) : List String :=
  (splitScan sep.data s.data.length s.data []).map String.mk

/-- The headers the embedding observes of a `reqwest::Response`: the
Content-Disposition header when present and readable as a string. -/
structure HttpResponse where
  contentDisposition : Option String
deriving DecidableEq, Repr

/-- The URL-fallback tail of `extract_filename`: last nonempty path
segment if the URL parses, else the `download.dat` default, and the
result passed through the sanitizer. -/
def extractFromUrl (sanitize : String → String)
    (pathSegments : String → Option (List String)) (url : String) : String :=
  let fallback := "download.dat"
  let name :=
    match pathSegments url with
    | some segs =>
      match segs.getLast? with
      | some last => if last != "" then last else fallback
      | none => fallback
    | none => fallback
  sanitize name

/-- `extract_filename` from `network/headers.rs`.  The
Content-Disposition branch returns directly after the quote/whitespace
trimming (the `return filename;` in the source), so the trailing
`sanitize_filename::sanitize` call is reached only by the URL-fallback
and default branches. -/
def extract_filename (sanitize : String → String)
    (pathSegments : String → Option (List String))
    (resp : HttpResponse) (url : String) : String :=
  match resp.contentDisposition with
  | some dispStr =>
    match (rustSplit "filename=" dispStr)[1]? with
    | some namePart =>
      trimMatchesChar apostChar (trimMatchesChar quoteChar (rustTrim namePart))
    | none => extractFromUrl sanitize pathSegments url
  | none => extractFromUrl sanitize pathSegments url

/-! ## Concrete run fragments used by the counterexamples and witnesses -/

/-- A metadata record mid-download (10 bytes total, chunk 0 done). -/
def c1Meta : DownloadMetadata :=
  { url := "https://example.com/a.bin", filepath := "/tmp/a.bin.part",
    total_size := 10, downloaded_bytes := 10, state := .Active, thread_count := 2,
    completed_chunks := [0], incomplete_chunks := [], paused_at := none,
    resumed_at := none, stopped_at := none, completed_at := none,
    error_message := none }

/-- Engine termination input: clean finish (signal 0, all bytes in), the
manager entry present, and a state file on disk. -/
def c1Input : EngineFinishInput :=
  { download_id := "d1", total_size := 10, total_chunks := 1, final_signal := 0,
    final_bytes := 10, final_completed_count := 1, managerEntry := some c1Meta,
    stateFileExists := true }

/-- Worker constants of a run whose generation snapshot is 7. -/
def c2cfg : WorkerCfg :=
  { generation := 7, chunk_size := 4, total_size := 8, total_chunks := 2 }

/-- A network where every attempt fails outright (never reached by the
zombie anyway). -/
def c2net : NetOracle := fun _ _ _ => .httpFail

/-- A zombie worker state: the resume bumped `control.generation` to 8
and reset the signal to 0; the worker still holds one leased-able chunk
in its (old) queue. -/
def c2state : WorkerState :=
  { control := { signal := 0, completed_chunks := [], downloaded_bytes := 0,
                 generation := 8 },
    queue := [0], retry_counts := [], bytesWritten := 0 }

/-- Worker constants for the accounting witness (10 bytes, 4-byte chunks). -/
def c3cfg : WorkerCfg :=
  { generation := 1, chunk_size := 4, total_size := 10, total_chunks := 3 }

/-- A network that streams a full 4-byte chunk on every attempt. -/
def c3net : NetOracle := fun _ _ _ => .streamed 4 true

/-- A fresh worker state over chunks 0 and 1. -/
def c3state : WorkerState :=
  { control := { signal := 0, completed_chunks := [], downloaded_bytes := 0,
                 generation := 1 },
    queue := [0, 1], retry_counts := [], bytesWritten := 0 }

/-- A paused (hence not active) metadata record. -/
def c5Meta : DownloadMetadata :=
  { url := "https://example.com/b.bin", filepath := "/tmp/b.bin.part",
    total_size := 12, downloaded_bytes := 4, state := .Paused, thread_count := 2,
    completed_chunks := [0], incomplete_chunks := [1, 2], paused_at := some (),
    resumed_at := none, stopped_at := none, completed_at := none,
    error_message := none }

/-- The control block for that download. -/
def c5Control : DownloadControl :=
  { signal := 0, completed_chunks := [0, 1], downloaded_bytes := 8, generation := 1 }

/-- Command environment: entry and control present, disk healthy. -/
def c5Env : CommandEnv :=
  { metadataEntry := some c5Meta, controlEntry := some c5Control,
    saveResult := .ok () }

/-- Command environment whose `save_state` fails. -/
def c8Env : CommandEnv :=
  { metadataEntry := some { c5Meta with state := .Active },
    controlEntry := some c5Control, saveResult := .error "disk full" }

/-- A response carrying a path-traversing Content-Disposition filename. -/
def c9resp : HttpResponse :=
  { contentDisposition := some "attachment; filename=\"../../evil.sh\"" }

/-! ## Helper lemmas -/

theorem totalChunks_bounds (S N : Nat) (hS : 0 < S) (hN : 0 < N) :
    N ≤ totalChunks N S * S ∧ totalChunks N S * S < N + S ∧ 1 ≤ totalChunks N S := by
  have h := Nat.div_add_mod (N + S - 1) S
  have hr : (N + S - 1) % S < S := Nat.mod_lt _ hS
  have h1 : 1 ≤ totalChunks N S := by
    have := (Nat.le_div_iff_mul_le hS).mpr (show 1 * S ≤ N + S - 1 by omega)
    simpa [totalChunks] using this
  refine ⟨?_, ?_, h1⟩
  · have : S * totalChunks N S + (N + S - 1) % S = N + S - 1 := h
    rw [Nat.mul_comm]
    omega
  · have : S * totalChunks N S + (N + S - 1) % S = N + S - 1 := h
    rw [Nat.mul_comm]
    omega

theorem pred_totalChunks_mul (S N : Nat) (hS : 0 < S) (hN : 0 < N) :
    (totalChunks N S - 1) * S = totalChunks N S * S - S := by
  obtain ⟨-, -, h1⟩ := totalChunks_bounds S N hS hN
  rcases Nat.exists_eq_add_of_le h1 with ⟨k, hk⟩
  rw [hk]
  simp [Nat.add_mul]

theorem chunkEnd_last (S N : Nat) (hS : 0 < S) (hN : 0 < N) :
    chunkEnd S N (totalChunks N S - 1) = N - 1 := by
  obtain ⟨hge, hlt, h1⟩ := totalChunks_bounds S N hS hN
  have hp := pred_totalChunks_mul S N hS hN
  unfold chunkEnd chunkStart
  split <;> omega

theorem expectedBytes_last (S N : Nat) (hS : 0 < S) (hN : 0 < N) :
    expectedBytes S N (totalChunks N S - 1) = N - (totalChunks N S - 1) * S := by
  obtain ⟨hge, hlt, h1⟩ := totalChunks_bounds S N hS hN
  have hp := pred_totalChunks_mul S N hS hN
  unfold expectedBytes chunkEnd chunkStart
  split <;> omega

/-- The attempt loop either leaves the control block untouched and reports
failure, or reports success, having added exactly `expected` to the byte
counter and appended exactly `idx` to the completed list; nothing else can
happen, in particular a partial stream changes neither field. -/
theorem attemptLoop_cases (cfg : WorkerCfg) (net : NetOracle) (idx expected : Nat)
    (es : Bool) :
    ∀ fuel attemptNo c bw,
      (∃ bw2, attemptLoop cfg net idx expected es fuel attemptNo c bw = (false, c, bw2)) ∨
      (∃ bw2, attemptLoop cfg net idx expected es fuel attemptNo c bw =
        (true,
          { c with
            downloaded_bytes := c.downloaded_bytes + expected,
            completed_chunks := c.completed_chunks ++ [idx] },
          bw2)) := by
  intro fuel
  induction fuel with
  | zero => intro attemptNo c bw; left; exact ⟨bw, rfl⟩
  | succ k ih =>
    intro attemptNo c bw
    unfold attemptLoop
    split
    · left; exact ⟨bw, rfl⟩
    · split
      · left; exact ⟨bw, rfl⟩
      · split
        · exact ih (attemptNo + 1) c bw
        · split
          · right; exact ⟨_, rfl⟩
          · exact ih (attemptNo + 1) c _

/-- A successful attempt loop means some attempt streamed exactly the
expected byte count with the `chunk_ok` flag intact. -/
theorem attemptLoop_success_net (cfg : WorkerCfg) (net : NetOracle) (idx expected : Nat)
    (es : Bool) :
    ∀ fuel attemptNo c bw,
      (attemptLoop cfg net idx expected es fuel attemptNo c bw).1 = true →
      ∃ a, net idx a es = .streamed expected true := by
  intro fuel
  induction fuel with
  | zero => intro attemptNo c bw h; simp [attemptLoop] at h
  | succ k ih =>
    intro attemptNo c bw h
    unfold attemptLoop at h
    split at h
    · simp at h
    · split at h
      · simp at h
      · split at h
        · exact ih _ _ _ h
        · rename_i heq
          split at h
          · rename_i hcond
            simp only [Bool.and_eq_true, beq_iff_eq] at hcond
            refine ⟨attemptNo, ?_⟩
            rw [heq, hcond.1, hcond.2]
          · exact ih _ _ _ h

/-- After one main-loop iteration, the control block is either untouched
or extended by exactly one full-chunk success. -/
theorem workerIteration_control (cfg : WorkerCfg) (net : NetOracle) (s : WorkerState) :
    (workerIteration cfg net s).2.control = s.control ∨
    (∃ idx, (workerIteration cfg net s).2.control =
      { s.control with
        downloaded_bytes :=
          s.control.downloaded_bytes + expectedBytes cfg.chunk_size cfg.total_size idx,
        completed_chunks := s.control.completed_chunks ++ [idx] }) := by
  simp only [workerIteration]
  split
  · left; rfl
  · split
    · split
      · left; rfl
      · left; rfl
    · rename_i idx rest _
      rcases attemptLoop_cases cfg net idx
          (expectedBytes cfg.chunk_size cfg.total_size idx)
          (decide (rcGet s.retry_counts idx + 1 < ADAPTIVE_RETRY_THRESHOLD))
          CHUNK_RETRY_LIMIT 1 s.control s.bytesWritten with
        ⟨bw2, hc⟩ | ⟨bw2, hc⟩
      · left; rw [hc]
      · right; exact ⟨idx, by rw [hc]⟩

/-! ## Claim theorems -/

/-- C4: `verify_download` returns Ok exactly when `downloaded_bytes ≥
total_size`, and otherwise returns an Integrity error whose message
carries the byte tally (downloaded vs total) and the chunk tally
(completed vs total). -/
theorem C4_verify_download_spec (d t c tc : Nat) :
    (verify_download d t c tc = .ok () ↔ t ≤ d) ∧
    (d < t →
      verify_download d t c tc = .error (.Integrity
        ("Download FAILED: " ++ toString d ++ " / " ++ toString t ++ " bytes (" ++
          toString c ++ " / " ++ toString tc ++ " chunks). Retry."))) := by
  constructor
  · unfold verify_download
    split
    · rename_i h
      simp only [reduceCtorEq, false_iff]
      omega
    · rename_i h
      simp only [true_iff]
      omega
  · intro h
    unfold verify_download
    rw [if_pos h]

/-- C4 witness: the theorem applied at a passing and at a failing tally. -/
theorem C4_verify_download_spec_witness :
    verify_download 5 3 2 2 = .ok () ∧
    verify_download 1 2 0 1 = .error (.Integrity
      ("Download FAILED: " ++ toString 1 ++ " / " ++ toString 2 ++ " bytes (" ++
        toString 0 ++ " / " ++ toString 1 ++ " chunks). Retry.")) :=
  ⟨(C4_verify_download_spec 5 3 2 2).1.mpr (by omega),
   (C4_verify_download_spec 1 2 0 1).2 (by omega)⟩

/-- C7: `calculate_chunk_size` realises the documented tiers (512 KiB
below 100 MiB, 4 MiB below 1 GiB, 16 MiB below 10 GiB, 64 MiB above), is
monotone in `total_size`, and each exact tier boundary yields the larger
tier's chunk size. -/
theorem C7_chunk_size_policy :
    (∀ n, n < 100 * 1024 * 1024 → calculate_chunk_size n = 512 * 1024) ∧
    (∀ n, 100 * 1024 * 1024 ≤ n → n < 1 * 1024 * 1024 * 1024 →
      calculate_chunk_size n = 4 * 1024 * 1024) ∧
    (∀ n, 1 * 1024 * 1024 * 1024 ≤ n → n < 10 * 1024 * 1024 * 1024 →
      calculate_chunk_size n = 16 * 1024 * 1024) ∧
    (∀ n, 10 * 1024 * 1024 * 1024 ≤ n → calculate_chunk_size n = 64 * 1024 * 1024) ∧
    (∀ a b, a ≤ b → calculate_chunk_size a ≤ calculate_chunk_size b) ∧
    calculate_chunk_size (100 * 1024 * 1024) = 4 * 1024 * 1024 ∧
    calculate_chunk_size (1 * 1024 * 1024 * 1024) = 16 * 1024 * 1024 ∧
    calculate_chunk_size (10 * 1024 * 1024 * 1024) = 64 * 1024 * 1024 := by
  refine ⟨?_, ?_, ?_, ?_, ?_, by decide, by decide, by decide⟩
  · intro n h; unfold calculate_chunk_size; split_ifs <;> omega
  · intro n h1 h2; unfold calculate_chunk_size; split_ifs <;> omega
  · intro n h1 h2; unfold calculate_chunk_size; split_ifs <;> omega
  · intro n h; unfold calculate_chunk_size; split_ifs <;> omega
  · intro a b h; unfold calculate_chunk_size; split_ifs <;> omega

/-- C7 witness: the tier equations and monotonicity applied at concrete
sizes. -/
theorem C7_chunk_size_policy_witness :
    calculate_chunk_size 1048576 = 512 * 1024 ∧
    calculate_chunk_size (200 * 1024 * 1024) = 4 * 1024 * 1024 ∧
    calculate_chunk_size 1048576 ≤ calculate_chunk_size (200 * 1024 * 1024) :=
  ⟨C7_chunk_size_policy.1 1048576 (by omega),
   C7_chunk_size_policy.2.1 (200 * 1024 * 1024) (by omega) (by omega),
   C7_chunk_size_policy.2.2.2.2.1 1048576 (200 * 1024 * 1024) (by omega)⟩

/-- C10: `allocate_sparse_file` needs `size ≥ 1`: the seek offset is the
u64 value of `size - 1`, so `size = 0` wraps to `2^64 - 1` and no
zero-length file results, while for `1 ≤ size < 2^64` the file length
afterwards is exactly `size`. -/
theorem C10_sparse_allocation (size : Nat) :
    (1 ≤ size → size < U64 → (allocate_sparse_file size).length = size) ∧
    (allocate_sparse_file 0).length = U64 ∧
    (allocate_sparse_file 0).length ≠ 0 := by
  refine ⟨?_, by rfl, by decide⟩
  intro h1 h2
  unfold allocate_sparse_file writeAll seekStart fileCreate u64sub1
  simp only [U64] at h2 ⊢
  omega

/-- C10 witness: the length equation applied at size 5. -/
theorem C10_sparse_allocation_witness :
    (allocate_sparse_file 5).length = 5 :=
  (C10_sparse_allocation 5).1 (by omega) (by decide)

/-- C6: for a chunk index `i` with `i·S < N` the worker requests the
inclusive range `[i·S, min((i+1)·S − 1, N − 1)]`, its attempt loop can
only succeed when the network streams exactly `end − start + 1` bytes,
and when `S` does not divide `N` the final chunk is strictly smaller
than `S` with inclusive end `N − 1`. -/
theorem C6_chunk_ranges (S N i : Nat) (hS : 0 < S) (hN : 0 < N) (hi : i * S < N) :
    chunkStart S i = i * S ∧
    chunkEnd S N i = min ((i + 1) * S - 1) (N - 1) ∧
    (∀ (cfg : WorkerCfg) (net : NetOracle) (es : Bool) (fuel attemptNo : Nat)
        (c : DownloadControl) (bw : Nat),
      (attemptLoop cfg net i (expectedBytes S N i) es fuel attemptNo c bw).1 = true →
      ∃ a, net i a es = .streamed (expectedBytes S N i) true) ∧
    (¬ (S ∣ N) →
      expectedBytes S N (totalChunks N S - 1) < S ∧
      chunkEnd S N (totalChunks N S - 1) = N - 1) := by
  refine ⟨rfl, ?_, ?_, ?_⟩
  · have h1 : (i + 1) * S = i * S + S := by ring
    unfold chunkEnd chunkStart
    rw [h1]
    split <;> omega
  · intro cfg net es fuel attemptNo c bw h
    exact attemptLoop_success_net cfg net i (expectedBytes S N i) es fuel attemptNo c bw h
  · intro hdvd
    obtain ⟨hge, hlt, h1⟩ := totalChunks_bounds S N hS hN
    have hp := pred_totalChunks_mul S N hS hN
    have hne : totalChunks N S * S ≠ N := by
      intro h
      rw [Nat.mul_comm] at h
      exact hdvd ⟨totalChunks N S, h.symm⟩
    refine ⟨?_, chunkEnd_last S N hS hN⟩
    rw [expectedBytes_last S N hS hN]
    omega

/-- C6 witness: the theorem applied at S = 4, N = 10, i = 2 (the final,
short chunk: bytes 8..9). -/
theorem C6_chunk_ranges_witness :
    chunkEnd 4 10 2 = min ((2 + 1) * 4 - 1) (10 - 1) ∧
    expectedBytes 4 10 (totalChunks 10 4 - 1) < 4 :=
  ⟨(C6_chunk_ranges 4 10 2 (by omega) (by omega) (by omega)).2.1,
   ((C6_chunk_ranges 4 10 2 (by omega) (by omega) (by omega)).2.2.2 (by omega)).1⟩

/-- C3: the byte counter equals the sum of the expected sizes of the
completed chunks and every worker main-loop iteration preserves this
(the counter moves only by a full-chunk success, by exactly the chunk's
expected size; a partial stream contributes nothing); the final chunk is
counted as `total_size − (total_chunks − 1)·chunk_size`. -/
theorem C3_progress_accounting :
    (∀ (cfg : WorkerCfg) (net : NetOracle) (s : WorkerState),
      workerInv cfg s → workerInv cfg (workerIteration cfg net s).2) ∧
    (∀ S N, 0 < S → 0 < N →
      expectedBytes S N (totalChunks N S - 1) = N - (totalChunks N S - 1) * S) := by
  constructor
  · intro cfg net s h
    unfold workerInv at h ⊢
    rcases workerIteration_control cfg net s with hc | ⟨idx, hc⟩
    · rw [hc, h]
    · rw [hc]
      simp [List.map_append, List.sum_append, h]
  · exact fun S N hS hN => expectedBytes_last S N hS hN

/-- C3 witness: the invariant step applied to a fresh worker state, and
the last-chunk size at S = 4, N = 10. -/
theorem C3_progress_accounting_witness :
    workerInv c3cfg (workerIteration c3cfg c3net c3state).2 ∧
    expectedBytes 4 10 (totalChunks 10 4 - 1) = 10 - (totalChunks 10 4 - 1) * 4 :=
  ⟨C3_progress_accounting.1 c3cfg c3net c3state rfl,
   C3_progress_accounting.2 4 10 (by omega) (by omega)⟩

/-- C2: a worker whose generation snapshot (7) differs from
`control.generation` (8) while the signal is 0 does NOT exit the whole
worker: the mismatch only breaks the attempt loop, the chunk is pushed
back, and the main loop keeps running — after ten iterations it has
still not exited, though it also never writes a byte.  The claim (and
the source's own "Worker generation mismatch, exiting" log line) say it
terminates within one loop iteration. -/
theorem C2_zombie_worker_keeps_looping :
    c2state.control.generation ≠ c2cfg.generation ∧
    c2state.control.signal = 0 ∧
    (workerIteration c2cfg c2net c2state).1 = IterResult.continueLoop ∧
    (workerIteration c2cfg c2net c2state).2.queue = [0] ∧
    (workerSteps c2cfg c2net 10 c2state).1 = false ∧
    (workerSteps c2cfg c2net 10 c2state).2.bytesWritten = 0 ∧
    (workerSteps c2cfg c2net 10 c2state).2.control.downloaded_bytes = 0 := by
  refine ⟨by decide, rfl, by decide, by decide, by decide, by decide, by decide⟩

/-- C1 counterexample: a clean finish (signal 0, integrity passes) with a
state file present.  The termination path returns "completed" but leaves
the state file exactly as it found it — `delete_state` is never called
on this path, so the claimed deletion does not happen. -/
theorem C1_state_file_counterexample :
    c1Input.final_signal = 0 ∧
    verify_download c1Input.final_bytes c1Input.total_size c1Input.final_completed_count
      c1Input.total_chunks = .ok () ∧
    (engineFinish c1Input).result = .ok ⟨"d1", "completed"⟩ ∧
    c1Input.stateFileExists = true ∧
    ¬ ((engineFinish c1Input).stateFileExists = false) := by
  refine ⟨rfl, rfl, rfl, rfl, by decide⟩

/-- C1 (amended): on a clean finish that passes the integrity check, the
engine emits the final progress event equal to `total_size`, marks the
manager metadata Completed with `downloaded_bytes = total_size`, removes
the entry from the manager and returns "completed" — but the state file
is left untouched, not deleted. -/
theorem C1_completion_amended (inp : EngineFinishInput) (m : DownloadMetadata)
    (h0 : inp.final_signal = 0)
    (hv : verify_download inp.final_bytes inp.total_size inp.final_completed_count
      inp.total_chunks = .ok ())
    (hm : inp.managerEntry = some m) :
    (engineFinish inp).result = .ok ⟨inp.download_id, "completed"⟩ ∧
    (engineFinish inp).events = [.progress inp.total_size, .state "completed"] ∧
    (engineFinish inp).updatedMeta =
      some { m.complete with downloaded_bytes := inp.total_size } ∧
    (engineFinish inp).updatedMeta.map DownloadMetadata.state =
      some DownloadState.Completed ∧
    (engineFinish inp).managerEntry = none ∧
    (engineFinish inp).stateFileExists = inp.stateFileExists := by
  unfold engineFinish
  rw [h0, hv, hm]
  simp [DownloadMetadata.complete]

/-- C1 witness: the amended theorem applied to the concrete clean
finish. -/
theorem C1_completion_amended_witness :
    (engineFinish c1Input).result = .ok ⟨"d1", "completed"⟩ ∧
    (engineFinish c1Input).managerEntry = none ∧
    (engineFinish c1Input).stateFileExists = c1Input.stateFileExists :=
  ⟨(C1_completion_amended c1Input c1Meta rfl rfl rfl).1,
   (C1_completion_amended c1Input c1Meta rfl rfl rfl).2.2.2.2.1,
   (C1_completion_amended c1Input c1Meta rfl rfl rfl).2.2.2.2.2⟩

/-- C5 counterexample: `stop_download` performs no active-state check.
On a download whose state is Paused (not Active) the claim demands an
error, but the command succeeds — it stops, syncs and saves anyway. -/
theorem C5_stop_state_check_counterexample :
    c5Meta.state = DownloadState.Paused ∧
    c5Meta.state.is_active = false ∧
    c5Env.metadataEntry = some c5Meta ∧
    (stop_download "d1" c5Env).1 = .ok () ∧
    (stop_download "d1" c5Env).2.2 = [Event.state "stopped"] := by
  refine ⟨rfl, rfl, rfl, rfl, rfl⟩

/-- C5 (amended): `stop_download` behaves like `pause_download` with
state Stopped — control counters synced into the metadata, signal set to
2, state saved, event "stopped" — except that it performs no active-state
check: it proceeds for any current state. -/
theorem C5_stop_amended (env : CommandEnv) (id : String) (m : DownloadMetadata)
    (c : DownloadControl) (hm : env.metadataEntry = some m)
    (hc : env.controlEntry = some c) (hs : env.saveResult = .ok ()) :
    (stop_download id env).1 = .ok () ∧
    (stop_download id env).2.1.metadataEntry =
      some { m.stop with
             downloaded_bytes := c.downloaded_bytes,
             completed_chunks := c.completed_chunks,
             incomplete_chunks :=
               m.incomplete_chunks.filter
                 (fun i => !c.completed_chunks.contains i) } ∧
    (stop_download id env).2.1.metadataEntry.map DownloadMetadata.state =
      some DownloadState.Stopped ∧
    (stop_download id env).2.1.controlEntry = some { c with signal := 2 } ∧
    (stop_download id env).2.2 = [Event.state "stopped"] := by
  simp [stop_download, hm, hc, hs, DownloadMetadata.stop]

/-- C5 witness: the amended theorem applied to the paused download. -/
theorem C5_stop_amended_witness :
    (stop_download "d1" c5Env).1 = .ok () ∧
    (stop_download "d1" c5Env).2.1.controlEntry = some { c5Control with signal := 2 } :=
  ⟨(C5_stop_amended c5Env "d1" c5Meta c5Control rfl rfl rfl).1,
   (C5_stop_amended c5Env "d1" c5Meta c5Control rfl rfl rfl).2.2.2.1⟩

/-- C8: when `save_state` fails, both `pause_download` and
`stop_download` return an error to the caller and the manager's metadata
entry is left exactly as it was (the registry update happens only after
a successful save). -/
theorem C8_save_failure_preserves_metadata (env : CommandEnv) (id e : String)
    (he : env.saveResult = .error e) :
    ((∃ msg, (pause_download id env).1 = .error msg) ∧
      (pause_download id env).2.1.metadataEntry = env.metadataEntry) ∧
    ((∃ msg, (stop_download id env).1 = .error msg) ∧
      (stop_download id env).2.1.metadataEntry = env.metadataEntry) := by
  obtain ⟨me, ce, sr⟩ := env
  simp only at he
  constructor
  · cases me with
    | none => simp [pause_download]
    | some m =>
      by_cases ha : m.state.is_active
      · cases ce <;> simp [pause_download, ha, he]
      · simp [pause_download, ha]
  · cases me with
    | none => simp [stop_download]
    | some m => cases ce <;> simp [stop_download, he]

/-- C8 witness: the theorem applied to an active download whose save
fails with "disk full". -/
theorem C8_save_failure_witness :
    (pause_download "d1" c8Env).2.1.metadataEntry = c8Env.metadataEntry ∧
    (stop_download "d1" c8Env).2.1.metadataEntry = c8Env.metadataEntry :=
  ⟨(C8_save_failure_preserves_metadata c8Env "d1" "disk full" rfl).1.2,
   (C8_save_failure_preserves_metadata c8Env "d1" "disk full" rfl).2.2⟩

/-- C9: a Content-Disposition filename is returned after quote/whitespace
trimming only — the early `return` skips the sanitizer, whatever the
sanitizer and URL parser do, so the path-traversing name comes back
verbatim.  The claim (and the function's own doc comment) say every
returned name is sanitized. -/
theorem C9_disposition_skips_sanitizer :
    ∀ (sanitize : String → String) (pathSegments : String → Option (List String)),
      extract_filename sanitize pathSegments c9resp "https://example.com/x" =
        "../../evil.sh" := by
  intro sanitize pathSegments
  rfl

end Pirate
